import Mathlib

/-!
Verification of the mutation-safety and resilience core of the reports API.

The definitions below are a shallow embedding of the TypeScript source:
  * `src/server/src/types/index.ts`         — data model (enums, `User`, `Report`)
  * `src/server/src/config/index.ts`        — quotas and business-rule limits
  * `src/server/src/services/businessRules.ts` — the chained rule engine
  * `src/server/src/services/dataStore.ts`  — the in-memory store (optimistic
    concurrency control, auto-archiving)
  * controller `ReportsController.updateReport` — the PUT /api/reports/:id pipeline
  * `src/server/src/middleware/idempotency.ts` — idempotency cache middleware
  * `src/server/src/utils/retry.ts`         — retry / backoff / circuit breaker

Conventions: JavaScript `Date` values are modelled as natural numbers
(milliseconds since the epoch); `Map` objects as association lists; JS numbers
holding versions, sizes and times as `Nat` (they are integral in all code
paths embedded here); the backoff delay, which is genuinely a float, as `ℚ`.
Impure reads of the wall clock (`new Date()`, `Date.now()`) become explicit
parameters of the functions that perform them.
-/

set_option maxRecDepth 20000

/-- Source `enum UserRole` from types/index.ts. -/
inductive UserRole where
  | reader
  | editor
  | admin
deriving DecidableEq, Repr

/-- Source `enum UserTier` from types/index.ts ('default' | 'premium'). -/
inductive UserTier where
  | dflt
  | premium
deriving DecidableEq, Repr

/-- The string value of a tier, as it appears at runtime in JS
(`UserTier.DEFAULT = 'default'`, `UserTier.PREMIUM = 'premium'`). -/
def UserTier.str : UserTier → String
  | .dflt => "default"
  | .premium => "premium"

/-- Source `enum ReportStatus` from types/index.ts. -/
inductive ReportStatus where
  | draft
  | active
  | archived
  | deleted
deriving DecidableEq, Repr

/-- Source `enum ReportPriority` from types/index.ts. -/
inductive ReportPriority where
  | low
  | medium
  | high
  | critical
deriving DecidableEq, Repr

/-- Source `interface User` from types/index.ts (the fields the core reads;
`password`, `email`, `name` are opaque strings carried along unmodified). -/
structure User where
  id : String
  email : String
  name : String
  role : UserRole
  tier : UserTier
  password : String
  createdAt : Nat
  updatedAt : Nat
  storageUsed : Nat
deriving DecidableEq, Repr

/-- Source `interface Report` from types/index.ts. `entries`, `comments` and
`metadata` never influence the verified operations (they are copied verbatim
by every mutation embedded here) and are represented by an opaque payload
string standing for their JSON value. -/
structure Report where
  id : String
  title : String
  description : String
  status : ReportStatus
  priority : ReportPriority
  createdBy : String
  createdAt : Nat
  updatedAt : Nat
  lastModifiedBy : String
  lastModifiedAt : Nat
  collaborators : List String
  concurrentEditors : List String
  tags : List String
  payload : String
  version : Nat
  isActive : Bool
deriving DecidableEq, Repr

/-! Configuration, from `src/server/src/config/index.ts` (env defaults). -/

/-- Source `config.storage.defaultUserQuota` (100MB). -/
def defaultUserQuota : Nat := 104857600

/-- Source `config.storage.premiumUserQuota` (500MB). -/
def premiumUserQuota : Nat := 524288000

/-- Source `config.businessRules.maxConcurrentEditors` (default 3). -/
def maxConcurrentEditors : Nat := 3

/-- Source `config.businessRules.autoArchiveDays` (default 730). -/
def autoArchiveDays : Nat := 730

/-- Source `getUserQuota` from config/index.ts: `tier === 'premium' ? premium : default`. -/
def getUserQuota (tier : String) : Nat :=
  if tier = "premium" then premiumUserQuota else defaultUserQuota

/-! The business-rule engine, from `src/server/src/services/businessRules.ts`. -/

/-- The `action` field of `BusinessRuleContext`. -/
inductive RuleAction where
  | read
  | create
  | update
  | delete
  | upload
deriving DecidableEq, Repr

/-- The optional `resource` side channel of a `BusinessRuleContext`; the
quota rule reads `resource?.fileSize`. -/
structure FileResource where
  fileSize : Nat
deriving DecidableEq, Repr

/-- Source `interface BusinessRuleContext` from types/index.ts. -/
structure BusinessRuleContext where
  user : User
  report : Report
  action : RuleAction
  resource : Option FileResource := none
deriving Repr

/-- Source `interface BusinessRuleResult` from types/index.ts. The `constraints`
map is advisory only (never read by control flow) and is not modelled. -/
structure BusinessRuleResult where
  allowed : Bool
  reason : Option String := none
deriving DecidableEq, Repr

namespace BusinessRulesService

/-- Rule 1 (`checkReportLifecycleManagement`): reports in ARCHIVED status
cannot be edited by anyone except ADMIN users. -/
def checkReportLifecycleManagement (context : BusinessRuleContext) : BusinessRuleResult :=
  if context.action = .update ∧ context.report.status = .archived then
    let allowed := context.user.role = .admin
    { allowed := allowed,
      reason := some (if allowed then "" else "Only ADMIN users can edit archived reports") }
  else
    { allowed := true }

/-- Rule 2 (`checkAttachmentQuota`): uploads only while total storage stays
within quota.  The source guard is `action === 'upload' && resource?.fileSize`,
so a missing or zero `fileSize` (JS falsy) skips the rule. -/
def checkAttachmentQuota (context : BusinessRuleContext) : BusinessRuleResult :=
  match context.resource with
  | some res =>
    if context.action = .upload ∧ res.fileSize ≠ 0 then
      let userQuota := getUserQuota context.user.tier.str
      let currentUsage := context.user.storageUsed
      let newTotalUsage := currentUsage + res.fileSize
      let allowed := newTotalUsage ≤ userQuota
      { allowed := allowed,
        reason := some (if allowed then "" else
          s!"Storage quota exceeded. Current: {currentUsage}, Quota: {userQuota}") }
    else
      { allowed := true }
  | none => { allowed := true }

/-- Rule 3 (`checkReportCollaboration`): updates require creator /
collaborator / admin, and at most `maxConcurrentEditors` concurrent editors. -/
def checkReportCollaboration (context : BusinessRuleContext) : BusinessRuleResult :=
  if context.action = .update then
    let isCreator := context.report.createdBy = context.user.id
    let isCollaborator := context.report.collaborators.contains context.user.id
    let isAdmin := context.user.role = .admin
    if ¬isCreator ∧ ¬isCollaborator ∧ ¬isAdmin then
      { allowed := false,
        reason := some "Only the creator, assigned collaborators, or admins can edit this report" }
    else
      let isCurrentlyEditing := context.report.concurrentEditors.contains context.user.id
      let wouldExceedLimit := ¬isCurrentlyEditing ∧
        maxConcurrentEditors ≤ context.report.concurrentEditors.length
      if wouldExceedLimit then
        { allowed := false,
          reason := some s!"Maximum of {maxConcurrentEditors} concurrent editors allowed" }
      else
        { allowed := true }
  else
    { allowed := true }

/-- Rule 4 (`checkDataRetentionPolicy`): reports created before the
two-years-ago cutoff are read-only for non-admin users.  The source computes
the cutoff from the wall clock (`new Date()` minus two years); it is passed
here as the explicit parameter `twoYearsAgo`. -/
def checkDataRetentionPolicy (twoYearsAgo : Nat) (context : BusinessRuleContext) : BusinessRuleResult :=
  let isOldReport := context.report.createdAt < twoYearsAgo
  let isAdmin := context.user.role = .admin
  if isOldReport ∧ context.action = .update ∧ ¬isAdmin then
    { allowed := false,
      reason := some "Reports older than 2 years are read-only for non-admin users" }
  else
    { allowed := true }

/-- Rule 5 (`checkGeneralEditPermissions`): updates require at least EDITOR. -/
def checkGeneralEditPermissions (context : BusinessRuleContext) : BusinessRuleResult :=
  if context.action = .update then
    let allowed := context.user.role = .editor ∨ context.user.role = .admin
    if ¬allowed then
      { allowed := false,
        reason := some "Insufficient permissions. Minimum role required: editor" }
    else
      { allowed := true }
  else
    { allowed := true }

/-- The short-circuiting loop body of `evaluateAllRules`: return the first
rule result with `allowed = false`, else overall allow. -/
def chainRules : List (BusinessRuleContext → BusinessRuleResult) → BusinessRuleContext → BusinessRuleResult
  | [], _ => { allowed := true }
  | rule :: rules, context =>
    let result := rule context
    if result.allowed then chainRules rules context else result

/-- Source `evaluateAllRules`: the fixed, ordered rule chain. -/
def evaluateAllRules (twoYearsAgo : Nat) (context : BusinessRuleContext) : BusinessRuleResult :=
  chainRules
    [ checkReportLifecycleManagement,
      checkAttachmentQuota,
      checkReportCollaboration,
      checkDataRetentionPolicy twoYearsAgo,
      checkGeneralEditPermissions ]
    context

/-- Source `shouldAutoArchive`: report created before the cutoff
(`now` minus `autoArchiveDays` days, passed explicitly) and not yet archived. -/
def shouldAutoArchive (cutoffDate : Nat) (report : Report) : Bool :=
  report.createdAt < cutoffDate && report.status != .archived

end BusinessRulesService

/-! The in-memory store, from `src/server/src/services/dataStore.ts`.
`Map<string, Report>` is modelled as an association list; `Map.set` replaces
the value of an existing key in place (insertion order is irrelevant to the
claims, which never observe iteration order beyond `autoArchiveOldReports`,
whose per-entry effect is order-independent). -/

/-- The `reports` map of `InMemoryStore`. -/
abbrev Store := List (String × Report)

/-- Source `Map.get`. -/
def Store.lookup (s : Store) (id : String) : Option Report :=
  (s.find? (fun e => e.1 = id)).map (·.2)

/-- Source `Map.set`: replace the entry of an existing key in place, else append. -/
def Store.set : Store → String → Report → Store
  | [], id, r => [(id, r)]
  | e :: es, id, r => if e.1 = id then (id, r) :: es else e :: Store.set es id r

/-- Errors thrown by store operations (`NotFoundError`, `ConflictError`
from types/index.ts). -/
inductive StoreError where
  | notFound
  | conflict
deriving DecidableEq, Repr

/-- The mutable fields accepted by `InMemoryStore.updateReport`
(`Partial<Report>` as built by the update endpoint: the body fields of
`UpdateReportRequest` plus the `version` used for the concurrency check). -/
structure ReportUpdates where
  title : Option String := none
  description : Option String := none
  status : Option ReportStatus := none
  priority : Option ReportPriority := none
  tags : Option (List String) := none
  collaborators : Option (List String) := none
  version : Option Nat := none
deriving DecidableEq, Repr

/-- The source's optimistic-concurrency guard
`updates.version && updates.version !== report.version`: JS truthiness makes
a missing or zero `updates.version` skip the check. -/
def versionCheckFails (updVersion : Option Nat) (stored : Nat) : Bool :=
  match updVersion with
  | none => false
  | some v => v != 0 && v != stored

/-- The merge `{...report, ...updates, updatedAt, lastModifiedBy,
lastModifiedAt, version: report.version + 1}` inside `updateReport`:
spread the updates over the stored report, then overwrite the four
bookkeeping fields (so a supplied `updates.version` never survives). -/
def mergeReport (report : Report) (updates : ReportUpdates) (userId : String) (now : Nat) : Report :=
  { report with
    title := updates.title.getD report.title,
    description := updates.description.getD report.description,
    status := updates.status.getD report.status,
    priority := updates.priority.getD report.priority,
    tags := updates.tags.getD report.tags,
    collaborators := updates.collaborators.getD report.collaborators,
    updatedAt := now,
    lastModifiedBy := userId,
    lastModifiedAt := now,
    version := report.version + 1 }

/-- Source `InMemoryStore.createReport`: take the caller's report data, stamp a fresh
id, creation/update times, `version: 1`, `isActive: true`, and insert. -/
def Store.createReport (s : Store) (reportData : Report) (newId : String) (now : Nat) : Report × Store :=
  let report := { reportData with
    id := newId, createdAt := now, updatedAt := now, version := 1, isActive := true }
  (report, s.set newId report)

/-- Source `InMemoryStore.getReport`: `null` when absent or soft-deleted. -/
def Store.getReport (s : Store) (id : String) : Option Report :=
  match s.lookup id with
  | none => none
  | some report => if report.isActive then some report else none

/-- Source `InMemoryStore.updateReport`: NotFound when missing or soft-deleted,
Conflict when the (truthy) supplied version differs from the stored one,
otherwise merge and store with `version` incremented by one.  The returned
store is the state after the call (unchanged when an error is thrown, since
the source throws before mutating). -/
def Store.updateReport (s : Store) (id : String) (updates : ReportUpdates)
    (userId : String) (now : Nat) : Except StoreError Report × Store :=
  match s.lookup id with
  | none => (.error .notFound, s)
  | some report =>
    if ¬report.isActive then (.error .notFound, s)
    else if versionCheckFails updates.version report.version then (.error .conflict, s)
    else
      let updatedReport := mergeReport report updates userId now
      (.ok updatedReport, s.set id updatedReport)

/-- Source `InMemoryStore.autoArchiveOldReports`: every active report past the
auto-archive cutoff gets `status := archived` and a fresh `updatedAt`
(the source leaves every other field, `version` included, untouched). -/
def Store.autoArchiveOldReports (s : Store) (cutoffDate : Nat) (now : Nat) : Store :=
  s.map (fun e =>
    if e.2.isActive && BusinessRulesService.shouldAutoArchive cutoffDate e.2 then
      (e.1, { e.2 with status := .archived, updatedAt := now })
    else e)

/-! The update endpoint, `ReportsController.updateReport`
(PUT /api/reports/:id): fetch, evaluate the rule chain, then call the store
with the body fields and `version: currentReport.version` — the controller
overwrites whatever version the client supplied with the stored one. -/

/-- Outcome of the update endpoint, as the HTTP layer maps it
(200 / 404 NotFound / 403 AuthorizationDenied / 409 VersionConflict). -/
inductive UpdateOutcome where
  | ok (report : Report)
  | notFound
  | forbidden (reason : Option String)
  | conflict
deriving DecidableEq, Repr

/-- Source `ReportsController.updateReport` (field validation, audit logging and
response shaping elided; `twoYearsAgo` is the retention cutoff the rule
chain computes from the wall clock). -/
def updateReportEndpoint (s : Store) (twoYearsAgo : Nat) (id : String)
    (body : ReportUpdates) (user : User) (now : Nat) : UpdateOutcome × Store :=
  match s.getReport id with
  | none => (.notFound, s)
  | some currentReport =>
    let ruleResult := BusinessRulesService.evaluateAllRules twoYearsAgo
      { user := user, report := currentReport, action := .update }
    if ¬ruleResult.allowed then (.forbidden ruleResult.reason, s)
    else
      let updates := { body with version := some currentReport.version }
      match s.updateReport id updates user.id now with
      | (.ok updatedReport, s') => (.ok updatedReport, s')
      | (.error .notFound, s') => (.notFound, s')
      | (.error .conflict, s') => (.conflict, s')

/-! The idempotency middleware, from `src/server/src/middleware/idempotency.ts`:
an `LRUCache<string, {status, body}>` with `max: 500` entries and a 1-hour
`ttl`, consulted before the handler and written after 2xx responses. -/

/-- One cached response: key, recorded HTTP status and JSON body, and the
time the entry was written (entries are kept most-recently-used first). -/
structure CacheEntry where
  key : String
  status : Nat
  body : String
  start : Nat
deriving DecidableEq, Repr

/-- The idempotency cache, most-recently-used entry first. -/
abbrev IdemCache := List CacheEntry

/-- Source `max: 500` from the LRUCache construction. -/
def idemCacheMax : Nat := 500

/-- Source `ttl: 1000 * 60 * 60` (one hour) from the LRUCache construction. -/
def idemCacheTtlMs : Nat := 3600000

/-- Source `LRUCache.get`: a hit moves the entry to most-recently-used position; a
stale entry (older than the ttl) is dropped and reported as a miss. -/
def IdemCache.get (c : IdemCache) (k : String) (now : Nat) :
    Option (Nat × String) × IdemCache :=
  match c.find? (fun e => e.key = k) with
  | none => (none, c)
  | some e =>
    if idemCacheTtlMs < now - e.start then
      (none, c.filter (fun e' => e'.key ≠ k))
    else
      (some (e.status, e.body), e :: c.filter (fun e' => e'.key ≠ k))

/-- Source `LRUCache.set`: insert (or refresh) the entry at most-recently-used
position and evict least-recently-used entries beyond `max`. -/
def IdemCache.set (c : IdemCache) (k : String) (status : Nat) (body : String)
    (now : Nat) : IdemCache :=
  (⟨k, status, body, now⟩ :: c.filter (fun e => e.key ≠ k)).take idemCacheMax

/-- Lower-case hex digit test for the UUID regex character classes
(`[0-9a-f]` under the `/i` flag). -/
def isHexDigit (c : Char) : Bool :=
  ('0' ≤ c && c ≤ '9') || ('a' ≤ c && c ≤ 'f') || ('A' ≤ c && c ≤ 'F')

/-- The middleware's idempotency-key shape check, the regex
`/^[0-9a-f]\x7b8\x7d-[0-9a-f]\x7b4\x7d-[4][0-9a-f]\x7b3\x7d-[89ab][0-9a-f]\x7b3\x7d-[0-9a-f]\x7b12\x7d$/i`:
36 characters, hyphens at positions 8/13/18/23, a version digit `4` at
position 14, a variant digit in `[89ab]` at position 19, hex elsewhere. -/
def isValidUuid (s : String) : Bool :=
  let cs := s.toList
  cs.length = 36 && (List.range 36).all (fun i =>
    let c := cs.getD i ' '
    if i = 8 ∨ i = 13 ∨ i = 18 ∨ i = 23 then c = '-'
    else if i = 14 then c = '4'
    else if i = 19 then c = '8' ∨ c = '9' ∨ c = 'a' ∨ c = 'b' ∨ c = 'A' ∨ c = 'B'
    else isHexDigit c)

/-- An HTTP response as the middleware sees it: status code and JSON body. -/
structure MwResponse where
  status : Nat
  body : String
deriving DecidableEq, Repr

/-- Result of running the middleware once: the response sent, the cache
afterwards, and whether the downstream handler (the actual mutation) ran. -/
structure MwResult where
  response : MwResponse
  cache : IdemCache
  handlerInvoked : Bool
deriving DecidableEq, Repr

/-- The 400 response for a malformed idempotency key. -/
def invalidKeyResponse : MwResponse :=
  { status := 400, body := "Invalid Idempotency-Key format. Must be a valid UUID." }

/-- Source `idempotencyMiddleware`: no key → pass through uncached; malformed key →
400 without running the handler; cached key → replay the recorded response
without running the handler; otherwise run the handler and record its
response iff the status is in the 2xx range.  `handler` is the response the
downstream mutation would produce if invoked. -/
def idempotencyMiddleware (c : IdemCache) (now : Nat) (key : Option String)
    (handler : MwResponse) : MwResult :=
  match key with
  | none => { response := handler, cache := c, handlerInvoked := true }
  | some k =>
    if ¬isValidUuid k then
      { response := invalidKeyResponse, cache := c, handlerInvoked := false }
    else
      match IdemCache.get c k now with
      | (some cached, c') =>
        { response := { status := cached.1, body := cached.2 }, cache := c',
          handlerInvoked := false }
      | (none, c') =>
        if 200 ≤ handler.status ∧ handler.status < 300 then
          { response := handler,
            cache := IdemCache.set c' k handler.status handler.body now,
            handlerInvoked := true }
        else
          { response := handler, cache := c', handlerInvoked := true }

/-! The async executor, from `src/server/src/utils/retry.ts`
(`executeAsyncSideEffect`): retry loop with exponential backoff and
per-operation-kind circuit breaker.  The operation's outcome at attempt `i`
is the oracle `outcomes i` (true = resolves, false = rejects), and
`failTime i` is the `Date.now()` read when attempt `i` fails; `now` is the
`Date.now()` read by the open-breaker check. -/

/-- Source `CircuitBreakerState` from retry.ts. -/
structure CBState where
  failures : Nat
  isOpen : Bool
  lastFailureTime : Nat
deriving DecidableEq, Repr

/-- The options of `executeAsyncSideEffect` with their defaults. -/
structure RetryOptions where
  maxRetries : Nat := 3
  backoffMs : ℚ := 1000
  jitter : Bool := true
  circuitBreakerThreshold : Nat := 5
  circuitBreakerResetMs : Nat := 30000
deriving DecidableEq, Repr

/-- The backoff delay before the retry after failed attempt `i`
(lines 155-160 of retry.ts): `backoffMs * 2^i`, multiplied by
`0.5 + Math.random()` when jitter is enabled; `rand` is the value
`Math.random()` returned, a real in `[0, 1)` modelled as a rational. -/
def computeDelay (backoffMs : ℚ) (i : Nat) (jitter : Bool) (rand : ℚ) : ℚ :=
  let delay := backoffMs * 2 ^ i
  if jitter then delay * (1/2 + rand) else delay

/-- How one `executeAsyncSideEffect` call ended. -/
inductive ExecStatus where
  | success
  | exhausted
  | failFast
deriving DecidableEq, Repr

/-- Final outcome of one `executeAsyncSideEffect` call: how it ended, the
circuit-breaker state it left behind, and how many times the operation was
actually invoked. -/
structure ExecOut where
  status : ExecStatus
  state : CBState
  invocations : Nat
deriving DecidableEq, Repr

/-- The breaker-state update of one failed attempt (lines 144-151):
increment `failures`, record the failure time, open the breaker when the
count reaches the threshold. -/
def failStep (threshold : Nat) (st : CBState) (t : Nat) : CBState :=
  { failures := st.failures + 1,
    isOpen := st.isOpen || decide (threshold ≤ st.failures + 1),
    lastFailureTime := t }

/-- The retry loop `for (let i = 0; i <= maxRetries; i++)`, entered with
`remaining = maxRetries + 1` attempts left.  Success resets the failure
counter and closes the breaker immediately; a failure on the last attempt
dead-letters and returns an absent result (`exhausted`). -/
def runAttempts (threshold : Nat) (outcomes : Nat → Bool) (failTime : Nat → Nat) :
    Nat → Nat → CBState → ExecOut
  | 0, _, st => { status := .exhausted, state := st, invocations := 0 }
  | 1, i, st =>
    if outcomes i then
      { status := .success,
        state := { st with failures := 0, isOpen := false }, invocations := 1 }
    else
      { status := .exhausted, state := failStep threshold st (failTime i),
        invocations := 1 }
  | (remaining + 2), i, st =>
    if outcomes i then
      { status := .success,
        state := { st with failures := 0, isOpen := false }, invocations := 1 }
    else
      let rest := runAttempts threshold outcomes failTime (remaining + 1) (i + 1)
        (failStep threshold st (failTime i))
      { rest with invocations := rest.invocations + 1 }

/-- Source `executeAsyncSideEffect`, state part: an open breaker either fails fast
(within the reset window) or transitions to half-open — `isOpen := false`,
`failures := 0` — before the retry loop runs. -/
def execute (opts : RetryOptions) (now : Nat) (outcomes : Nat → Bool)
    (failTime : Nat → Nat) (st : CBState) : ExecOut :=
  if st.isOpen then
    if opts.circuitBreakerResetMs < now - st.lastFailureTime then
      runAttempts opts.circuitBreakerThreshold outcomes failTime
        (opts.maxRetries + 1) 0 { st with isOpen := false, failures := 0 }
    else
      { status := .failFast, state := st, invocations := 0 }
  else
    runAttempts opts.circuitBreakerThreshold outcomes failTime
      (opts.maxRetries + 1) 0 st

/-! Concrete fixtures (the sample users and reports seeded by
`InMemoryStore.initializeSampleData`, dates in epoch milliseconds), used by
witnesses and counterexamples. -/

/-- Sample admin `user-1`. -/
def sampleAdmin : User :=
  { id := "user-1", email := "admin@example.com", name := "Admin User",
    role := .admin, tier := .premium, password := "admin123-hash",
    createdAt := 1704067200000, updatedAt := 1704067200000, storageUsed := 0 }

/-- Sample editor `user-2` (50MB used). -/
def sampleEditor : User :=
  { id := "user-2", email := "editor@example.com", name := "Editor User",
    role := .editor, tier := .dflt, password := "editor123-hash",
    createdAt := 1704153600000, updatedAt := 1704153600000, storageUsed := 52428800 }

/-- Sample reader `user-3` (10MB used). -/
def sampleReader : User :=
  { id := "user-3", email := "reader@example.com", name := "Reader User",
    role := .reader, tier := .dflt, password := "reader123-hash",
    createdAt := 1704240000000, updatedAt := 1704240000000, storageUsed := 10485760 }

/-- Sample report `report-1` (active, owned by `user-2`). -/
def sampleReport : Report :=
  { id := "report-1", title := "Q1 Financial Report",
    description := "Comprehensive financial analysis for Q1 2024",
    status := .active, priority := .high, createdBy := "user-2",
    createdAt := 1705276800000, updatedAt := 1705708800000,
    lastModifiedBy := "user-2", lastModifiedAt := 1705708800000,
    collaborators := ["user-1"], concurrentEditors := [],
    tags := ["finance", "quarterly", "analysis"], payload := "entries-1",
    version := 1, isActive := true }

/-- Sample report `report-2` (archived, 2+ years old, owned by `user-2`). -/
def archivedReport : Report :=
  { id := "report-2", title := "Old Archived Report",
    description := "This is an old report that should be archived",
    status := .archived, priority := .low, createdBy := "user-2",
    createdAt := 1640995200000, updatedAt := 1640995200000,
    lastModifiedBy := "user-2", lastModifiedAt := 1640995200000,
    collaborators := [], concurrentEditors := [], tags := ["archived", "old"],
    payload := "", version := 1, isActive := true }

/-- The rule chain allows a context iff every rule in the list allows it. -/
theorem chainRules_allowed_iff (rules : List (BusinessRuleContext → BusinessRuleResult))
    (context : BusinessRuleContext) :
    (BusinessRulesService.chainRules rules context).allowed = true ↔
      ∀ rule ∈ rules, (rule context).allowed = true := by
  induction rules with
  | nil => simp [BusinessRulesService.chainRules]
  | cons rule rules ih =>
    by_cases h : (rule context).allowed = true
    · simp [BusinessRulesService.chainRules, h, ih]
    · simp only [BusinessRulesService.chainRules, if_neg h]
      simp [Bool.eq_false_iff.mpr h, h]

/-- When every rule in the list allows, the chain returns the plain allow
result (with no reason attached). -/
theorem chainRules_all_true (rules : List (BusinessRuleContext → BusinessRuleResult))
    (context : BusinessRuleContext)
    (h : ∀ rule ∈ rules, (rule context).allowed = true) :
    BusinessRulesService.chainRules rules context = { allowed := true } := by
  induction rules with
  | nil => simp [BusinessRulesService.chainRules]
  | cons rule rules ih =>
    have h1 := h rule (List.mem_cons_self rule rules)
    simp only [BusinessRulesService.chainRules, h1, if_true]
    exact ih (fun r hr => h r (List.mem_cons_of_mem rule hr))

/-- Rule 5 denies an update by a reader. -/
theorem general_rule_denies_reader (context : BusinessRuleContext)
    (ha : context.action = .update) (hr : context.user.role = .reader) :
    (BusinessRulesService.checkGeneralEditPermissions context).allowed = false := by
  simp [BusinessRulesService.checkGeneralEditPermissions, ha, hr]

/-- C4: for every actor whose role is below Editor (i.e. Reader), every
report, every retention cutoff and every side-channel resource, the rule
chain denies `update`. -/
theorem reader_update_always_denied (twoYearsAgo : Nat) (u : User) (rep : Report)
    (res : Option FileResource) (h : u.role = .reader) :
    (BusinessRulesService.evaluateAllRules twoYearsAgo
      { user := u, report := rep, action := .update, resource := res }).allowed = false := by
  have hgen := general_rule_denies_reader
    { user := u, report := rep, action := .update, resource := res } rfl h
  rw [Bool.eq_false_iff]
  intro hall
  rw [BusinessRulesService.evaluateAllRules] at hall
  have := (chainRules_allowed_iff _ _).mp hall
    BusinessRulesService.checkGeneralEditPermissions (by simp)
  rw [hgen] at this
  exact Bool.false_ne_true this

/-- C4 witness: the sample reader is denied an update of the sample report. -/
theorem reader_update_always_denied_witness :
    (BusinessRulesService.evaluateAllRules 0
      { user := sampleReader, report := sampleReport, action := .update,
        resource := none }).allowed = false :=
  reader_update_always_denied 0 sampleReader sampleReport none rfl

/-- Rule 1 denies an update of an archived report by a non-admin. -/
theorem lifecycle_rule_denies_nonadmin (context : BusinessRuleContext)
    (ha : context.action = .update) (hs : context.report.status = .archived)
    (hr : context.user.role ≠ .admin) :
    (BusinessRulesService.checkReportLifecycleManagement context).allowed = false := by
  simp [BusinessRulesService.checkReportLifecycleManagement, ha, hs, hr]

/-- C5: on an archived report, an `update` is allowed by the rule chain only
when the actor is an Admin (rule 1 short-circuits every non-admin). -/
theorem archived_update_allows_only_admin (twoYearsAgo : Nat) (u : User) (rep : Report)
    (res : Option FileResource) (h : rep.status = .archived) :
    (BusinessRulesService.evaluateAllRules twoYearsAgo
      { user := u, report := rep, action := .update, resource := res }).allowed = true →
      u.role = .admin := by
  intro hallow
  by_contra hn
  have hlc := lifecycle_rule_denies_nonadmin
    { user := u, report := rep, action := .update, resource := res } rfl h hn
  rw [BusinessRulesService.evaluateAllRules] at hallow
  have := (chainRules_allowed_iff _ _).mp hallow
    BusinessRulesService.checkReportLifecycleManagement (by simp)
  rw [hlc] at this
  exact Bool.false_ne_true this

/-- C5 witness: on the archived sample report, the sample admin's update is
allowed, so the implication instantiates with a true antecedent. -/
theorem archived_update_allows_only_admin_witness :
    sampleAdmin.role = .admin :=
  archived_update_allows_only_admin 0 sampleAdmin archivedReport none rfl (by decide)

/-- C10 (implicit): the rule chain never restricts `read`, `create` or
`delete`: every rule's deny branches are guarded by `update`/`upload`, so the
whole chain returns the plain allow result. -/
theorem rules_allow_read_create_delete (twoYearsAgo : Nat) (u : User) (rep : Report)
    (res : Option FileResource) (a : RuleAction)
    (h : a = .read ∨ a = .create ∨ a = .delete) :
    BusinessRulesService.evaluateAllRules twoYearsAgo
      { user := u, report := rep, action := a, resource := res } =
      { allowed := true, reason := none } := by
  have hne : a ≠ .update ∧ a ≠ .upload := by
    rcases h with h | h | h <;> subst h <;> exact ⟨by simp, by simp⟩
  rw [BusinessRulesService.evaluateAllRules]
  apply chainRules_all_true
  intro rule hrule
  simp only [List.mem_cons, List.not_mem_nil, or_false] at hrule
  rcases hrule with h1 | h1 | h1 | h1 | h1 <;> subst h1
  · simp [BusinessRulesService.checkReportLifecycleManagement, hne.1]
  · rcases res with _ | r
    · simp [BusinessRulesService.checkAttachmentQuota]
    · simp [BusinessRulesService.checkAttachmentQuota, hne.2]
  · simp [BusinessRulesService.checkReportCollaboration, hne.1]
  · simp [BusinessRulesService.checkDataRetentionPolicy, hne.1]
  · simp [BusinessRulesService.checkGeneralEditPermissions, hne.1]

/-- C10 witness: the sample reader may `read` the archived sample report. -/
theorem rules_allow_read_create_delete_witness :
    BusinessRulesService.evaluateAllRules 0
      { user := sampleReader, report := archivedReport, action := .read,
        resource := none } = { allowed := true, reason := none } :=
  rules_allow_read_create_delete 0 sampleReader archivedReport none .read (Or.inl rfl)

/-- A user over quota with nothing uploaded yet beyond it (default tier,
quota + 1 bytes used). -/
def overQuotaUser : User :=
  { id := "user-4", email := "hoarder@example.com", name := "Over Quota User",
    role := .editor, tier := .dflt, password := "x",
    createdAt := 0, updatedAt := 0, storageUsed := 104857601 }

/-- C6 counterexample: with a proposed file size of 0 the source guard
`action === 'upload' && resource?.fileSize` is falsy, so the quota rule
passes even though `usage + 0 > tierQuota` — the claim's "including 0" case
is wrong on the code. -/
theorem quota_rule_zero_size_counterexample :
    (BusinessRulesService.checkAttachmentQuota
      { user := overQuotaUser, report := sampleReport, action := .upload,
        resource := some { fileSize := 0 } }).allowed = true ∧
    getUserQuota overQuotaUser.tier.str < overQuotaUser.storageUsed + 0 := by
  decide

/-- C6 (amended): for upload contexts that supply a nonzero proposed file
size, the quota rule rejects exactly when `usage + proposedSize` exceeds the
tier quota; a zero (or missing) size skips the rule entirely. -/
theorem quota_rule_characterization (u : User) (rep : Report) (res : FileResource)
    (h : res.fileSize ≠ 0) :
    (BusinessRulesService.checkAttachmentQuota
      { user := u, report := rep, action := .upload,
        resource := some res }).allowed = false ↔
      getUserQuota u.tier.str < u.storageUsed + res.fileSize := by
  have hcond : (BusinessRulesService.checkAttachmentQuota
      { user := u, report := rep, action := .upload,
        resource := some res }).allowed =
      decide (u.storageUsed + res.fileSize ≤ getUserQuota u.tier.str) := by
    simp [BusinessRulesService.checkAttachmentQuota, h]
  rw [hcond]
  simp only [decide_eq_false_iff_not]
  omega

/-- C6 witness: the sample editor (50MB used, default 100MB quota) is denied
a 60MB upload. -/
theorem quota_rule_characterization_witness :
    (BusinessRulesService.checkAttachmentQuota
      { user := sampleEditor, report := sampleReport, action := .upload,
        resource := some { fileSize := 62914560 } }).allowed = false :=
  (quota_rule_characterization sampleEditor sampleReport
    { fileSize := 62914560 } (by decide)).mpr (by decide)

/-- Source `versionCheckFails` unfolded: the check trips exactly on a supplied,
nonzero expected version that differs from the stored one. -/
theorem versionCheckFails_iff (updVersion : Option Nat) (stored : Nat) :
    versionCheckFails updVersion stored = true ↔
      ∃ v, updVersion = some v ∧ v ≠ 0 ∧ v ≠ stored := by
  cases updVersion with
  | none => simp [versionCheckFails]
  | some v => simp [versionCheckFails, bne_iff_ne]

/-- C2 counterexample: the claim says a supplied expected version that
differs from the stored version (here 0 ≠ 1) must fail with
VersionConflict, but the JS truthiness guard `updates.version && …` treats 0
as "omitted" and the write proceeds. -/
theorem store_update_zero_version_counterexample :
    (Store.updateReport [("report-1", sampleReport)] "report-1"
        { version := some 0 } "user-2" 5).1 =
      .ok (mergeReport sampleReport { version := some 0 } "user-2" 5) ∧
    ((Store.updateReport [("report-1", sampleReport)] "report-1"
        { version := some 0 } "user-2" 5).2.lookup "report-1").map Report.version =
      some 2 ∧
    sampleReport.version = 1 ∧ (0 : Nat) ≠ sampleReport.version :=
  ⟨rfl, rfl, rfl, by decide⟩

/-- C2 (amended): the store-level update fails with NotFound exactly when
the report is missing or soft-deleted (i.e. `getReport` yields nothing);
fails with VersionConflict exactly when the payload supplies a *nonzero*
expected version different from the stored one (zero, like an omitted
version, is falsy in JS and skips the check entirely); and on either failure
the store is unchanged. -/
theorem store_update_characterization (s : Store) (id : String)
    (upd : ReportUpdates) (userId : String) (now : Nat) :
    ((s.updateReport id upd userId now).1 = .error .notFound ↔
       s.getReport id = none) ∧
    ((s.updateReport id upd userId now).1 = .error .conflict ↔
       ∃ rep v, s.getReport id = some rep ∧ upd.version = some v ∧
         v ≠ 0 ∧ v ≠ rep.version) ∧
    (upd.version = none → (s.updateReport id upd userId now).1 ≠ .error .conflict) ∧
    (∀ e, (s.updateReport id upd userId now).1 = .error e →
       (s.updateReport id upd userId now).2 = s) := by
  unfold Store.updateReport Store.getReport
  cases hl : s.lookup id with
  | none => simp
  | some rep =>
    dsimp only
    by_cases hact : rep.isActive = true
    · rw [if_neg (not_not_intro hact)]
      cases hv : versionCheckFails upd.version rep.version with
      | true =>
        obtain ⟨v, hvs, hv0, hvne⟩ := (versionCheckFails_iff _ _).mp hv
        rw [if_pos (rfl : true = true)]
        refine ⟨by simp [hact], ?_, ?_, fun e _ => rfl⟩
        · constructor
          · intro _
            exact ⟨rep, v, by simp [hact], hvs, hv0, hvne⟩
          · intro _
            rfl
        · intro hnone
          rw [hnone] at hv
          simp [versionCheckFails] at hv
      | false =>
        rw [if_neg (by simp : ¬(false = true))]
        refine ⟨by simp [hact], ?_, by simp, by simp⟩
        constructor
        · intro hcontra
          exact absurd hcontra (by simp)
        · rintro ⟨rep', v, hrep', hvs, hv0, hvne⟩
          rw [if_pos hact, Option.some_inj] at hrep'
          subst hrep'
          have : versionCheckFails upd.version rep.version = true :=
            (versionCheckFails_iff _ _).mpr ⟨v, hvs, hv0, hvne⟩
          rw [this] at hv
          exact absurd hv (by simp)
    · rw [if_pos hact]
      have hfalse : rep.isActive = false := Bool.eq_false_iff.mpr hact
      refine ⟨by simp [hfalse], ?_, by simp, fun e _ => rfl⟩
      constructor
      · intro hcontra
        exact absurd hcontra (by simp)
      · rintro ⟨rep', v, hrep', -, -, -⟩
        rw [if_neg (by simp [hfalse])] at hrep'
        exact absurd hrep' (by simp)

/-- C2 witness: on a store holding only `report-1`, updating a missing id
fails with NotFound. -/
theorem store_update_characterization_witness :
    (Store.updateReport [("report-1", sampleReport)] "missing"
        { } "user-2" 5).1 = .error .notFound :=
  (store_update_characterization [("report-1", sampleReport)] "missing"
    { } "user-2" 5).1.mpr (by decide)

/-- Writing a key and reading it back yields the written report. -/
theorem Store.lookup_set (s : Store) (id : String) (r : Report) :
    (s.set id r).lookup id = some r := by
  induction s with
  | nil => simp [Store.set, Store.lookup]
  | cons e es ih =>
    by_cases he : e.1 = id
    · simp [Store.set, Store.lookup, he]
    · simp only [Store.set, if_neg he]
      simpa [Store.lookup, List.find?, he] using ih

/-- Auto-archiving touches `status` and `updatedAt` but never `version`:
the version of every stored report is unchanged. -/
theorem autoArchive_preserves_version (s : Store) (cutoffDate now : Nat) (id : String) :
    ((s.autoArchiveOldReports cutoffDate now).lookup id).map Report.version =
      (s.lookup id).map Report.version := by
  induction s with
  | nil => simp [Store.autoArchiveOldReports, Store.lookup]
  | cons e es ih =>
    by_cases he : e.1 = id
    · by_cases harch : e.2.isActive = true ∧
        BusinessRulesService.shouldAutoArchive cutoffDate e.2 = true
      · simp [Store.autoArchiveOldReports, Store.lookup, List.find?, he,
          harch.1, harch.2]
      · rcases Decidable.not_and_iff_or_not.mp harch with hx | hx <;>
          simp [Store.autoArchiveOldReports, Store.lookup, List.find?, he,
            Bool.eq_false_iff.mpr hx]
    · by_cases harch : e.2.isActive = true ∧
        BusinessRulesService.shouldAutoArchive cutoffDate e.2 = true
      · simpa [Store.autoArchiveOldReports, Store.lookup, List.find?, he,
          harch.1, harch.2] using ih
      · rcases Decidable.not_and_iff_or_not.mp harch with hx | hx <;>
          simpa [Store.autoArchiveOldReports, Store.lookup, List.find?, he,
            Bool.eq_false_iff.mpr hx] using ih

/-- C3 (amended): a successful store-level update increments the stored
version by exactly 1 (and the updated report is what the store then holds),
while `autoArchiveOldReports` — also a successful mutation when it flips a
report to archived — leaves every report's version unchanged; together,
versions never decrease. -/
theorem mutation_version_behavior (s : Store) (id : String) (upd : ReportUpdates)
    (userId : String) (now : Nat) (rep updated : Report) (s' : Store)
    (hl : s.lookup id = some rep)
    (hok : s.updateReport id upd userId now = (.ok updated, s')) :
    updated.version = rep.version + 1 ∧
    s'.lookup id = some updated ∧
    ∀ (st : Store) (cutoffDate t : Nat) (anyId : String),
      ((st.autoArchiveOldReports cutoffDate t).lookup anyId).map Report.version =
        (st.lookup anyId).map Report.version := by
  unfold Store.updateReport at hok
  rw [hl] at hok
  dsimp only at hok
  by_cases hact : rep.isActive = true
  · rw [if_neg (not_not_intro hact)] at hok
    cases hv : versionCheckFails upd.version rep.version with
    | true =>
      rw [if_pos hv] at hok
      exact absurd (congrArg Prod.fst hok) (by simp)
    | false =>
      rw [if_neg (by simp [hv])] at hok
      have h1 : mergeReport rep upd userId now = updated := by
        have := congrArg Prod.fst hok
        simpa using this
      have h2 : s.set id (mergeReport rep upd userId now) = s' := by
        have := congrArg Prod.snd hok
        simpa using this
      subst h1
      subst h2
      exact ⟨rfl, Store.lookup_set s id (mergeReport rep upd userId now),
        fun st cutoffDate t anyId =>
          autoArchive_preserves_version st cutoffDate t anyId⟩
  · rw [if_pos hact] at hok
    exact absurd (congrArg Prod.fst hok) (by simp)

/-- C3 witness: updating `report-1` (version 1) yields version 2, stored,
and auto-archive preserves versions. -/
theorem mutation_version_behavior_witness :
    (mergeReport sampleReport { title := some "t2" } "user-2" 7).version =
      sampleReport.version + 1 :=
  (mutation_version_behavior [("report-1", sampleReport)] "report-1"
    { title := some "t2" } "user-2" 7 sampleReport
    (mergeReport sampleReport { title := some "t2" } "user-2" 7)
    (Store.set [("report-1", sampleReport)] "report-1"
      (mergeReport sampleReport { title := some "t2" } "user-2" 7))
    (by decide) rfl).1

/-- An old, still-active report (created at time 0, version 1). -/
def oldActiveReport : Report :=
  { id := "report-old", title := "Legacy", description := "old data",
    status := .active, priority := .low, createdBy := "user-2",
    createdAt := 0, updatedAt := 0, lastModifiedBy := "user-2",
    lastModifiedAt := 0, collaborators := [], concurrentEditors := [],
    tags := [], payload := "", version := 1, isActive := true }

/-- C3 counterexample: auto-archive really mutates the report (status
becomes archived, a successful mutation), yet the version stays 1 instead
of incrementing to 2 as the claim demands. -/
theorem auto_archive_no_version_bump_counterexample :
    ((Store.autoArchiveOldReports [("report-old", oldActiveReport)] 10 99).lookup
        "report-old").map Report.status = some .archived ∧
    ((Store.autoArchiveOldReports [("report-old", oldActiveReport)] 10 99).lookup
        "report-old").map Report.version = some 1 ∧
    oldActiveReport.version = 1 := by
  decide

/-- The version carried by a successful endpoint outcome. -/
def UpdateOutcome.okVersion : UpdateOutcome → Option Nat
  | .ok r => some r.version
  | _ => none

/-- The report data the editor submits at creation (ids/stamps are assigned
by `Store.createReport`). -/
def c1NewReportData : Report :=
  { id := "", title := "New Report", description := "freshly created",
    status := .draft, priority := .medium, createdBy := "user-2",
    createdAt := 0, updatedAt := 0, lastModifiedBy := "user-2",
    lastModifiedAt := 0, collaborators := [], concurrentEditors := [],
    tags := [], payload := "", version := 0, isActive := false }

/-- The store right after the editor creates the report (version 1). -/
def c1Store : Store := (Store.createReport [] c1NewReportData "rep-1" 1000).2

/-- First endpoint update, supplying `expectedVersion = 1`. -/
def c1FirstUpdate : UpdateOutcome × Store :=
  updateReportEndpoint c1Store 500 "rep-1"
    { title := some "first edit", version := some 1 } sampleEditor 2000

/-- Second endpoint update, *reusing* `expectedVersion = 1` against the
now-version-2 report. -/
def c1SecondUpdate : UpdateOutcome × Store :=
  updateReportEndpoint c1FirstUpdate.2 500 "rep-1"
    { title := some "second edit", version := some 1 } sampleEditor 3000

/-- C1 evaluation at the failing input: after create (version 1) and a
first update with `expectedVersion=1` (version 2), the second update that
reuses `expectedVersion=1` does NOT fail with VersionConflict — it succeeds
and bumps the version to 3, because `ReportsController.updateReport`
overwrites the client-supplied version with `currentReport.version` before
calling the store. -/
theorem stale_expected_version_not_rejected :
    ((c1Store.lookup "rep-1").map Report.version = some 1) ∧
    c1FirstUpdate.1.okVersion = some 2 ∧
    c1SecondUpdate.1.okVersion = some 3 ∧
    c1SecondUpdate.1 ≠ .conflict ∧
    ((c1SecondUpdate.2.lookup "rep-1").map Report.version = some 3) := by
  refine ⟨rfl, rfl, rfl, ?_, rfl⟩
  intro h
  have : (UpdateOutcome.conflict).okVersion = some 3 := h ▸ (rfl : c1SecondUpdate.1.okVersion = some 3)
  simp [UpdateOutcome.okVersion] at this

/-- C8 counterexample: with `Math.random() = 0.5` the source computes
`delay * (0.5 + 0.5) = delay`, so the actual delay for attempt 0 with
`baseBackoffMs = 1000` is 1000 — which is NOT of the form
`1000 * 2^0 * f` for any factor `f` in `[0.5, 1.0)` as the claim requires. -/
theorem jitter_factor_counterexample :
    computeDelay 1000 0 true (1/2) = 1000 ∧
    ¬ ∃ f : ℚ, 1/2 ≤ f ∧ f < 1 ∧ computeDelay 1000 0 true (1/2) = 1000 * 2 ^ 0 * f := by
  constructor
  · norm_num [computeDelay]
  · rintro ⟨f, hf1, hf2, hf3⟩
    rw [show computeDelay 1000 0 true (1/2) = 1000 by norm_num [computeDelay]] at hf3
    norm_num at hf3
    rw [hf3] at hf2
    exact absurd hf2 (by norm_num)

/-- C8 (amended): when attempt `i` fails and attempts remain, the delay is
`baseBackoffMs * 2^i` with jitter disabled, and with jitter enabled it is
that value times the factor `0.5 + Math.random()`, which lies in
`[0.5, 1.5)` (not `[0.5, 1.0)`). -/
theorem backoff_delay_characterization (b : ℚ) (i : Nat) (r : ℚ)
    (h0 : 0 ≤ r) (h1 : r < 1) :
    computeDelay b i false r = b * 2 ^ i ∧
    ∃ f : ℚ, computeDelay b i true r = b * 2 ^ i * f ∧ 1/2 ≤ f ∧ f < 3/2 := by
  refine ⟨by simp [computeDelay], ⟨1/2 + r, by simp [computeDelay], ?_, ?_⟩⟩
  · linarith
  · linarith

/-- C8 witness: at `baseBackoffMs = 1000`, attempt 2, `Math.random() = 1/4`,
the jitter-free delay is 4000. -/
theorem backoff_delay_characterization_witness :
    computeDelay 1000 2 false (1/4) = 1000 * 2 ^ 2 :=
  (backoff_delay_characterization 1000 2 (1/4) (by norm_num) (by norm_num)).1

/-- A first-attempt success ends the retry loop at once: Closed breaker,
failure counter zeroed, exactly one invocation. -/
theorem runAttempts_first_success (threshold : Nat) (outcomes : Nat → Bool)
    (failTime : Nat → Nat) (remaining i : Nat) (st : CBState)
    (h : outcomes i = true) :
    runAttempts threshold outcomes failTime (remaining + 1) i st =
      { status := .success, state := ⟨0, false, st.lastFailureTime⟩,
        invocations := 1 } := by
  cases remaining <;> simp [runAttempts, h]

/-- When every attempt fails, the loop exhausts all `remaining` attempts:
the failure counter grows by `remaining`, the breaker opens iff the count
reaches the threshold, and the clock ends at the last failure. -/
theorem runAttempts_all_fail (threshold : Nat) (outcomes : Nat → Bool)
    (failTime : Nat → Nat) (hfail : ∀ j, outcomes j = false) :
    ∀ (remaining i : Nat) (st : CBState),
      runAttempts threshold outcomes failTime (remaining + 1) i st =
        { status := .exhausted,
          state := ⟨st.failures + (remaining + 1),
                    st.isOpen || decide (threshold ≤ st.failures + (remaining + 1)),
                    failTime (i + remaining)⟩,
          invocations := remaining + 1 } := by
  intro remaining
  induction remaining with
  | zero =>
    intro i st
    simp [runAttempts, hfail i, failStep]
  | succ remaining ih =>
    intro i st
    rw [show remaining + 1 + 1 = remaining + 2 from rfl]
    have hstep : runAttempts threshold outcomes failTime (remaining + 2) i st =
        (let rest := runAttempts threshold outcomes failTime (remaining + 1) (i + 1)
          (failStep threshold st (failTime i));
         { rest with invocations := rest.invocations + 1 }) := by
      simp [runAttempts, hfail i]
    rw [hstep]
    rw [ih (i + 1) (failStep threshold st (failTime i))]
    simp only [failStep]
    refine congrArg (fun z => ExecOut.mk .exhausted z (remaining + 1 + 1)) ?_
    congr 1
    · omega
    · rw [Bool.or_assoc]
      by_cases h1 : threshold ≤ st.failures + 1
      · have h2 : threshold ≤ st.failures + (remaining + 1 + 1) := by omega
        simp [h1, h2]
      · have h3 : st.failures + 1 + (remaining + 1) = st.failures + (remaining + 1 + 1) := by
          omega
        simp [h1, h3]
    · exact congrArg failTime (by omega)

/-- Any entered retry loop invokes the operation at least once. -/
theorem runAttempts_invokes (threshold : Nat) (outcomes : Nat → Bool)
    (failTime : Nat → Nat) (remaining i : Nat) (st : CBState) :
    1 ≤ (runAttempts threshold outcomes failTime (remaining + 1) i st).invocations := by
  cases remaining with
  | zero =>
    by_cases h : outcomes i = true <;> simp [runAttempts, h]
  | succ n =>
    by_cases h : outcomes i = true <;> simp [runAttempts, h]

/-- C9 (amended): once `circuitBreakerResetMs` has elapsed since the last
failure of an Open breaker, the next `execute` call enters half-open —
`failures` reset to 0, `isOpen` cleared — and runs the operation for real
(at least one invocation).  If the probe (attempt 0) succeeds, the call ends
Closed with the failure counter at 0.  If instead every attempt of the call
fails, the failure counter restarts from the probe's failure and ends at
`maxRetries + 1`, the clock restarts from the last failure time, and the
breaker is Open again only if that count reached the threshold — a single
failed probe does NOT by itself reopen the breaker. -/
theorem half_open_probe_behavior (opts : RetryOptions) (st : CBState) (now : Nat)
    (outcomes : Nat → Bool) (failTime : Nat → Nat)
    (hopen : st.isOpen = true)
    (helapsed : opts.circuitBreakerResetMs < now - st.lastFailureTime) :
    1 ≤ (execute opts now outcomes failTime st).invocations ∧
    (outcomes 0 = true →
      execute opts now outcomes failTime st =
        { status := .success, state := ⟨0, false, st.lastFailureTime⟩,
          invocations := 1 }) ∧
    ((∀ j, outcomes j = false) →
      execute opts now outcomes failTime st =
        { status := .exhausted,
          state := ⟨opts.maxRetries + 1,
                    decide (opts.circuitBreakerThreshold ≤ opts.maxRetries + 1),
                    failTime opts.maxRetries⟩,
          invocations := opts.maxRetries + 1 }) := by
  unfold execute
  rw [if_pos hopen, if_pos helapsed]
  refine ⟨runAttempts_invokes _ _ _ _ _ _, ?_, ?_⟩
  · intro hsucc
    exact runAttempts_first_success _ _ _ _ _ _ hsucc
  · intro hfail
    rw [runAttempts_all_fail _ _ _ hfail (opts.maxRetries) 0 _]
    simp

/-- C9 witness: a breaker opened at time 0 with the default 30000ms reset
window, probed at time 30001 with a succeeding operation, ends Closed with
zero failures. -/
theorem half_open_probe_behavior_witness :
    execute { } 30001 (fun _ => true) (fun _ => 30001) ⟨5, true, 0⟩ =
      { status := .success, state := ⟨0, false, 0⟩, invocations := 1 } :=
  ((half_open_probe_behavior { } ⟨5, true, 0⟩ 30001 (fun _ => true)
    (fun _ => 30001) rfl (by norm_num)).2.1) rfl

/-- C9 counterexample: breaker open since time 0 (threshold 5), reset
window elapsed, probe at time 30001 fails and `maxRetries := 0` ends the
call — the claim says the breaker "returns to Open", but the code had reset
`failures` to 0 on the half-open transition, so the failed probe leaves
`failures = 1 < 5` and the breaker CLOSED (`isOpen = false`), merely with a
restarted clock. -/
theorem half_open_probe_failure_counterexample :
    execute { maxRetries := 0 } 30001 (fun _ => false) (fun _ => 30001) ⟨5, true, 0⟩ =
      { status := .exhausted, state := ⟨1, false, 30001⟩, invocations := 1 } ∧
    ({ status := .exhausted, state := ⟨1, false, 30001⟩,
       invocations := 1 } : ExecOut).state.isOpen = false := by
  constructor
  · rfl
  · rfl

/-- Reading back a key immediately after `set`, within the ttl, yields the
recorded status and body. -/
theorem IdemCache.get_set_fresh (c : IdemCache) (k : String) (status : Nat)
    (body : String) (now now2 : Nat) (h : now2 - now ≤ idemCacheTtlMs) :
    (IdemCache.get (IdemCache.set c k status body now) k now2).1 =
      some (status, body) := by
  unfold IdemCache.set IdemCache.get
  rw [show idemCacheMax = 499 + 1 from rfl, List.take_succ_cons]
  simp only [List.find?, decide_True]
  rw [if_neg (by omega)]

/-- C7 (amended): under a valid idempotency key, (a) a mutating request that
misses the cache runs the handler, and a 2xx response is recorded so that a
lookup at any time within the TTL returns exactly that status and body; and
(b) whenever a request's key hits a live cache entry, the middleware replies
with exactly the recorded status and body and the handler is not invoked.
(The recorded entry can, however, be evicted before its TTL expires by LRU
size pressure — see the counterexample — so the claim's "any later request
before the TTL expires" holds only while the entry has not been evicted.) -/
theorem idempotent_replay_semantics :
    (∀ (c : IdemCache) (now : Nat) (k : String) (handler : MwResponse),
      isValidUuid k = true → (IdemCache.get c k now).1 = none →
      200 ≤ handler.status → handler.status < 300 →
      (idempotencyMiddleware c now (some k) handler).handlerInvoked = true ∧
      ∀ now2, now2 - now ≤ idemCacheTtlMs →
        (IdemCache.get (idempotencyMiddleware c now (some k) handler).cache k now2).1 =
          some (handler.status, handler.body)) ∧
    (∀ (c : IdemCache) (now : Nat) (k : String) (st : Nat) (b : String)
      (handler : MwResponse),
      isValidUuid k = true → (IdemCache.get c k now).1 = some (st, b) →
      (idempotencyMiddleware c now (some k) handler).response = ⟨st, b⟩ ∧
      (idempotencyMiddleware c now (some k) handler).handlerInvoked = false) := by
  constructor
  · intro c now k handler hvalid hmiss h2a h2b
    rcases hg : IdemCache.get c k now with ⟨v, c'⟩
    rw [hg] at hmiss
    simp only at hmiss
    subst hmiss
    unfold idempotencyMiddleware
    dsimp only
    rw [if_neg (not_not_intro hvalid), hg]
    dsimp only
    rw [if_pos ⟨h2a, h2b⟩]
    exact ⟨rfl, fun now2 h2 => IdemCache.get_set_fresh c' k handler.status handler.body now now2 h2⟩
  · intro c now k st b handler hvalid hhit
    rcases hg : IdemCache.get c k now with ⟨v, c'⟩
    rw [hg] at hhit
    simp only at hhit
    subst hhit
    unfold idempotencyMiddleware
    dsimp only
    rw [if_neg (not_not_intro hvalid), hg]
    exact ⟨rfl, rfl⟩

/-- C7 witness: a cache holding a live entry for a valid UUID key replays
the recorded 200/"cached-body" response without invoking the handler. -/
theorem idempotent_replay_semantics_witness :
    (idempotencyMiddleware
        [⟨"11111111-1111-4111-8111-111111111111", 200, "cached-body", 0⟩] 10
        (some "11111111-1111-4111-8111-111111111111")
        { status := 201, body := "fresh" }).response =
      { status := 200, body := "cached-body" } ∧
    (idempotencyMiddleware
        [⟨"11111111-1111-4111-8111-111111111111", 200, "cached-body", 0⟩] 10
        (some "11111111-1111-4111-8111-111111111111")
        { status := 201, body := "fresh" }).handlerInvoked = false :=
  idempotent_replay_semantics.2
    [⟨"11111111-1111-4111-8111-111111111111", 200, "cached-body", 0⟩] 10
    "11111111-1111-4111-8111-111111111111" 200 "cached-body"
    { status := 201, body := "fresh" } (by decide) (by decide)

/-! C7 counterexample: a recorded entry can be evicted by LRU size pressure
(`max: 500`) long before its 1-hour TTL, after which a replay of the same
key re-invokes the handler.  The burst of 500 intervening requests uses 500
distinct valid UUID keys. -/

/-- Lower-case hex digit for `n < 16`. -/
def hexChar (n : Nat) : Char :=
  if n < 10 then Char.ofNat (48 + n) else Char.ofNat (87 + n)

/-- The `i`-th burst key: a valid v4-shaped UUID whose first three characters
encode `i` in hex (little-endian digits), e.g. `"21000000-0000-4000-8000-..."`. -/
def mkUuidKey (i : Nat) : String :=
  String.mk (hexChar (i % 16) :: hexChar (i / 16 % 16) :: hexChar (i / 256 % 16) ::
    "00000-0000-4000-8000-000000000000".toList)

/-- The idempotency key of the request whose response gets evicted. -/
def c7ReplayKey : String := "ffffffff-ffff-4fff-8fff-ffffffffffff"

/-- The entry the middleware records for the first request. -/
def recordedEntry : CacheEntry := ⟨c7ReplayKey, 201, "first-response", 0⟩

/-- Cache state after the first mutating request (201, recorded) at time 0. -/
def c7CacheAfterRecord : IdemCache :=
  (idempotencyMiddleware [] 0 (some c7ReplayKey)
    { status := 201, body := "first-response" }).cache

/-- The entry recorded for the `i`-th burst request (at time `i + 1`). -/
def burstEntry (i : Nat) : CacheEntry := ⟨mkUuidKey i, 200, "other", i + 1⟩

/-- Cache state after the first `n` burst requests (each a successful
mutating request under a fresh valid key) have followed the recorded one. -/
def burstCache : Nat → IdemCache
  | 0 => c7CacheAfterRecord
  | n + 1 =>
    (idempotencyMiddleware (burstCache n) (n + 1) (some (mkUuidKey n))
      { status := 200, body := "other" }).cache

/-- The burst entries for keys `n-1, …, 0`, most recent first. -/
def burstPrefix (n : Nat) : IdemCache := (List.range n).reverse.map burstEntry

theorem burstPrefix_succ (n : Nat) :
    burstPrefix (n + 1) = burstEntry n :: burstPrefix n := by
  simp [burstPrefix, List.range_succ]

theorem burstPrefix_length (n : Nat) : (burstPrefix n).length = n := by
  simp [burstPrefix]

theorem hexChar_isHex (n : Nat) (h : n < 16) : isHexDigit (hexChar n) = true := by
  interval_cases n <;> decide

theorem hexChar_inj (a b : Nat) (ha : a < 16) (hb : b < 16)
    (h : hexChar a = hexChar b) : a = b := by
  interval_cases a <;> interval_cases b <;> revert h <;> decide

/-- Any three leading hex digits in front of the fixed burst-key tail give a
string of the canonical UUID shape. -/
theorem isValidUuid_cons3 (c0 c1 c2 : Char)
    (h0 : isHexDigit c0 = true) (h1 : isHexDigit c1 = true)
    (h2 : isHexDigit c2 = true) :
    isValidUuid (String.mk (c0 :: c1 :: c2 ::
      "00000-0000-4000-8000-000000000000".toList)) = true := by
  unfold isValidUuid
  rw [show (List.range 36) =
    [0,1,2,3,4,5,6,7,8,9,10,11,12,13,14,15,16,17,18,19,20,21,22,23,24,25,
     26,27,28,29,30,31,32,33,34,35] from rfl]
  simp [h0, h1, h2]
  decide

theorem isValidUuid_mkUuidKey (i : Nat) : isValidUuid (mkUuidKey i) = true :=
  isValidUuid_cons3 _ _ _
    (hexChar_isHex _ (Nat.mod_lt _ (by norm_num)))
    (hexChar_isHex _ (Nat.mod_lt _ (by norm_num)))
    (hexChar_isHex _ (Nat.mod_lt _ (by norm_num)))

theorem mkUuidKey_inj (i j : Nat) (hi : i < 4096) (hj : j < 4096)
    (h : mkUuidKey i = mkUuidKey j) : i = j := by
  unfold mkUuidKey at h
  have hdata : (hexChar (i % 16) :: hexChar (i / 16 % 16) :: hexChar (i / 256 % 16) ::
      "00000-0000-4000-8000-000000000000".toList) =
      (hexChar (j % 16) :: hexChar (j / 16 % 16) :: hexChar (j / 256 % 16) ::
      "00000-0000-4000-8000-000000000000".toList) := congrArg String.data h
  simp only [List.cons.injEq] at hdata
  obtain ⟨h0, h1, h2, -⟩ := hdata
  have e0 := hexChar_inj _ _ (Nat.mod_lt _ (by norm_num)) (Nat.mod_lt _ (by norm_num)) h0
  have e1 := hexChar_inj _ _ (Nat.mod_lt _ (by norm_num)) (Nat.mod_lt _ (by norm_num)) h1
  have e2 := hexChar_inj _ _ (Nat.mod_lt _ (by norm_num)) (Nat.mod_lt _ (by norm_num)) h2
  omega

theorem mkUuidKey_ne_replay (i : Nat) : mkUuidKey i ≠ c7ReplayKey := by
  intro h
  have h3 : ('0' : Char) = 'f' := by
    calc ('0' : Char) = (mkUuidKey i).toList.getD 3 ' ' := rfl
      _ = c7ReplayKey.toList.getD 3 ' ' := by rw [h]
      _ = 'f' := rfl
  exact absurd h3 (by decide)

/-- Source `find?` misses when no entry carries the key. -/
theorem find_none_of_keys_ne (c : IdemCache) (k : String)
    (h : ∀ e ∈ c, e.key ≠ k) :
    c.find? (fun e => e.key = k) = none := by
  rw [List.find?_eq_none]
  intro e he
  simpa using h e he

/-- One middleware step on a cache miss with a valid key and a 2xx handler:
run the handler and record its response at most-recently-used position. -/
theorem middleware_miss (c : IdemCache) (now : Nat) (k : String)
    (handler : MwResponse) (hvalid : isValidUuid k = true)
    (hmiss : c.find? (fun e => e.key = k) = none)
    (h2a : 200 ≤ handler.status) (h2b : handler.status < 300) :
    idempotencyMiddleware c now (some k) handler =
      { response := handler,
        cache := (⟨k, handler.status, handler.body, now⟩ ::
          c.filter (fun e => e.key ≠ k)).take idemCacheMax,
        handlerInvoked := true } := by
  unfold idempotencyMiddleware IdemCache.get IdemCache.set
  dsimp only
  rw [if_neg (not_not_intro hvalid), hmiss]
  dsimp only
  rw [if_pos ⟨h2a, h2b⟩]

/-- No entry of `burstPrefix n ++ [recordedEntry]` (for `n ≤ 499`) carries
the key `mkUuidKey n`. -/
theorem burst_key_fresh (n : Nat) (hn : n ≤ 499) :
    ∀ e ∈ burstPrefix n ++ [recordedEntry], e.key ≠ mkUuidKey n := by
  intro e he
  rcases List.mem_append.mp he with hp | hr
  · obtain ⟨j, hj, rfl⟩ := List.mem_map.mp hp
    have hjn : j < n := List.mem_range.mp (List.mem_reverse.mp hj)
    intro hk
    have : j = n := mkUuidKey_inj j n (by omega) (by omega) hk
    omega
  · have : e = recordedEntry := List.mem_singleton.mp hr
    subst this
    exact fun hk => mkUuidKey_ne_replay n hk.symm

/-- The cache after `n ≤ 499` burst requests: the `n` burst entries (most
recent first) with the recorded entry still at the least-recently-used end. -/
theorem burstCache_eq (n : Nat) (hn : n ≤ 499) :
    burstCache n = burstPrefix n ++ [recordedEntry] := by
  induction n with
  | zero => rfl
  | succ n ih =>
    have hn' : n ≤ 499 := by omega
    have hlen : (burstPrefix n ++ [recordedEntry]).length = n + 1 := by
      simp [burstPrefix]
    rw [show burstCache (n + 1) =
      (idempotencyMiddleware (burstCache n) (n + 1) (some (mkUuidKey n))
        { status := 200, body := "other" }).cache from rfl]
    rw [ih hn']
    rw [middleware_miss _ _ _ _ (isValidUuid_mkUuidKey n)
      (find_none_of_keys_ne _ _ (burst_key_fresh n hn')) (by norm_num) (by norm_num)]
    dsimp only
    rw [List.filter_eq_self.mpr (by
      intro e he
      simpa using burst_key_fresh n hn' e he)]
    rw [List.take_of_length_le (by
      rw [List.length_cons, hlen, show idemCacheMax = 500 from rfl]
      omega)]
    rw [burstPrefix_succ]
    rfl

/-- Unfolding one burst step. -/
theorem burstCache_succ (n : Nat) :
    burstCache (n + 1) =
      (idempotencyMiddleware (burstCache n) (n + 1) (some (mkUuidKey n))
        { status := 200, body := "other" }).cache := rfl

/-- After the 500th burst request the recorded entry has been evicted:
only the 500 burst entries remain. -/
theorem burstCache_500 : burstCache 500 = burstPrefix 500 := by
  have h499 := burstCache_eq 499 (by norm_num)
  rw [show (500 : Nat) = 499 + 1 from rfl, burstCache_succ 499, h499]
  rw [middleware_miss _ _ _ _ (isValidUuid_mkUuidKey 499)
    (find_none_of_keys_ne _ _ (burst_key_fresh 499 (by norm_num)))
    (by norm_num) (by norm_num)]
  dsimp only
  rw [List.filter_eq_self.mpr (by
    intro e he
    simpa using burst_key_fresh 499 (by norm_num) e he)]
  rw [show idemCacheMax = 499 + 1 from rfl, List.take_succ_cons,
    List.take_append_of_le_length (by rw [burstPrefix_length]),
    List.take_of_length_le (by rw [burstPrefix_length])]
  rw [burstPrefix_succ 499]
  rfl

/-- No burst entry carries the replayed key. -/
theorem replay_key_absent :
    ∀ e ∈ burstPrefix 500, e.key ≠ c7ReplayKey := by
  intro e he
  obtain ⟨j, hj, rfl⟩ := List.mem_map.mp he
  exact mkUuidKey_ne_replay j

/-- C7 counterexample: the first request's 201 response is recorded under a
valid key; 500 further successful mutating requests under fresh valid keys
then evict it (LRU, `max: 500`), and a replay of the original key at time
600 — far inside the 1-hour TTL — misses the cache, re-invokes the
handler, and returns the fresh response instead of the recorded one. -/
theorem idempotent_replay_evicted_counterexample :
    (IdemCache.get c7CacheAfterRecord c7ReplayKey 0).1 = some (201, "first-response") ∧
    (idempotencyMiddleware (burstCache 500) 600 (some c7ReplayKey)
      { status := 201, body := "rerun-response" }).handlerInvoked = true ∧
    (idempotencyMiddleware (burstCache 500) 600 (some c7ReplayKey)
      { status := 201, body := "rerun-response" }).response =
      { status := 201, body := "rerun-response" } ∧
    (600 : Nat) - 0 ≤ idemCacheTtlMs := by
  have hmid := middleware_miss (burstCache 500) 600 c7ReplayKey
    { status := 201, body := "rerun-response" } (by decide)
    (by
      rw [burstCache_500]
      exact find_none_of_keys_ne _ _ replay_key_absent)
    (by norm_num) (by norm_num)
  exact ⟨rfl, by rw [hmid], by rw [hmid], by decide⟩

